import Mathlib

/-!
# tugbot: the container classifier and its override configuration

A shallow embedding of `container/container.go`.

* Go strings are `String`; `len` is the byte length.
* A Go map `map[string]V` is its lookup function `String → Option V`
  (`none`: key absent).  Reading a key gives the pair `value, ok` of Go's
  two-result index expression.  Iteration order of a Go map is unspecified, and
  the source only reads keys and inserts keys, so nothing else is observed.
* A pointer that the source or its tests leave `nil` (`containerInfo`,
  `imageInfo`, `HostConfig`) is an `Option`; dereferencing `none` is the
  run-time panic `Fault.nilDereference`.  `Config` and `State` are set on
  every record that the tests build and are read without a nil test
  everywhere; they are modelled as present.
* The container record and the image record are distinct objects.
* Methods that write through the shared `*ContainerConfig` or `*HostConfig`
  return the container state after the call together with their outcome.
* The polling driver of `actions` is outside the listed source and is modelled
  from the specification.
-/

namespace Tugbot

/-! ## Go run-time model -/

/-- Run-time panics of the Go code. -/
inductive Fault where
  | nilDereference
  | sliceBoundsOutOfRange
  | indexOutOfRange
  | nilMapAssignment
  deriving DecidableEq, Repr

/-- Outcome of a call: it returns a value or it panics. -/
inductive Outcome (α : Type) where
  | returns (a : α)
  | panics (f : Fault)
  deriving DecidableEq, Repr

/-- A Go map with string keys, as its lookup function. -/
abbrev GoMap (V : Type) := String → Option V

namespace GoMap

/-- The map without entries (also the reading of a nil map). -/
def empty {V : Type} : GoMap V := fun _ => none

/-- Map literal: the first pair with the key decides. -/
def ofList {V : Type} : List (String × V) → GoMap V
  | [] => empty
  | (k, v) :: rest => fun q => if q = k then some v else ofList rest q

/-- Go's `val, ok := m[k]` on a `map[string]string`. -/
def index (m : GoMap String) (k : String) : String × Bool :=
  match m k with
  | some v => (v, true)
  | none => ("", false)

/-- Whether `k` is a key of `m`. -/
def hasKey {V : Type} (m : GoMap V) (k : String) : Bool := (m k).isSome

/-- The loop `for p := range b { m[p] = struct{}{} }`: every key of `b` is
entered in `m`, the other keys of `m` stay. -/
def insertKeysOf {V : Type} (m : GoMap Unit) (b : GoMap V) : GoMap Unit :=
  fun p => if hasKey b p then some () else m p

end GoMap

/-- Go's `len(s)` on a string: its length in bytes. -/
def len (s : String) : Nat := s.utf8ByteSize

/-- Go's `strings.Contains(s, substr)`: `substr` starts at some position of `s`. -/
def stringsContains (s substr : String) : Bool :=
  s.data.tails.any (fun t => substr.data.isPrefixOf t)

/-- Go's `fmt.Sprintf("%s:latest", s)`. -/
def sprintfLatest (s : String) : String := s ++ ":latest"

/-! ## Docker client records (the fields the source reads or writes) -/

/-- The `dockerclient.ContainerConfig` record. -/
structure ContainerConfig where
  User : String
  ExposedPorts : GoMap Unit
  Env : List String
  Cmd : Option (List String)
  Image : String
  Volumes : GoMap Unit
  WorkingDir : String
  Entrypoint : Option (List String)
  Labels : GoMap String

/-- The `dockerclient.PortBinding` record. -/
structure PortBinding where
  HostIp : String
  HostPort : String
  deriving DecidableEq, Repr

/-- The `dockerclient.HostConfig` record. -/
structure HostConfig where
  Links : List String
  PortBindings : GoMap (List PortBinding)

/-- The `dockerclient.State` record, seen through the string that its
`StateString` method reports. -/
structure State where
  StateString : String
  deriving DecidableEq, Repr

/-- The `dockerclient.ContainerInfo` record. -/
structure ContainerInfo where
  Id : String
  Name : String
  Config : ContainerConfig
  State : State
  HostConfig : Option HostConfig

/-- The `dockerclient.ImageInfo` record. -/
structure ImageInfo where
  Id : String
  Config : ContainerConfig

/-! ## container.go -/

def LabelTugbot : String := "gaiadocker.tugbot"
def LabelTest : String := "tugbot.test"
def LabelCreatedFrom : String := "tugbot.created.from"
def LabelStopSignal : String := "tugbot.stop-signal"
def LabelZodiac : String := "tugbot.zodiac.original-image"

/-- Container represents a running Docker container. -/
structure Container where
  Stale : Bool
  containerInfo : Option ContainerInfo
  imageInfo : Option ImageInfo

/-- NewContainer pairs a container record with an image record. -/
def NewContainer (containerInfo : Option ContainerInfo) (imageInfo : Option ImageInfo) :
    Container :=
  { Stale := false, containerInfo := containerInfo, imageInfo := imageInfo }

namespace Container

/-- ImageName: the zodiac label when the key is present, else the recorded
image; `:latest` is appended when the name has no `:`. -/
def ImageName (c : Container) : Outcome String :=
  match c.containerInfo with
  | none => .panics .nilDereference
  | some info =>
    let (imageName, ok) := info.Config.Labels.index LabelZodiac
    let imageName := if !ok then info.Config.Image else imageName
    let imageName :=
      if !stringsContains imageName ":" then sprintfLatest imageName else imageName
    .returns imageName

/-- IsTugbot: the container carries the agent label with value "true". -/
def IsTugbot (c : Container) : Outcome Bool :=
  match c.containerInfo with
  | none => .panics .nilDereference
  | some info =>
    let (val, ok) := info.Config.Labels.index LabelTugbot
    .returns (ok && val == "true")

/-- StopSignal: the stop-signal label, "" when the key is absent. -/
def StopSignal (c : Container) : Outcome String :=
  match c.containerInfo with
  | none => .panics .nilDereference
  | some info =>
    let (val, ok) := info.Config.Labels.index LabelStopSignal
    .returns (if ok then val else "")

/-- IsTugbotCandidate: a test container that was not created by tugbot and
whose state string is "exited". -/
def IsTugbotCandidate (c : Container) : Outcome Bool :=
  match c.containerInfo with
  | none => .panics .nilDereference
  | some info =>
    let ret := false
    let (val, ok) := info.Config.Labels.index LabelTest
    if ok && val == "true" then
      let (val, ok) := info.Config.Labels.index LabelCreatedFrom
      if !ok || len val == 0 then
        .returns (info.State.StateString == "exited")
      else .returns ret
    else .returns ret

end Container

/-! ## Helpers of the repository that are outside the listed source -/

/-- Modelled from the spec: `sliceEqual` is not in the listed source.  Command
and entrypoint are cleared "only if element-wise identical to the image default
sequence (same length, same order, same values)"; an absent slice has length 0. -/
def sliceEqual (s1 s2 : Option (List String)) : Bool :=
  decide (s1.getD [] = s2.getD [])

/-- Modelled from the spec: `sliceSubtract` is not in the listed source.  "Every
entry present in the image's default environment is removed from the runtime
set regardless of order; remaining entries are the overrides." -/
def sliceSubtract (a1 a2 : List String) : List String :=
  a1.filter (fun e => !a2.contains e)

/-- Modelled from the spec: `stringMapSubtract` is not in the listed source.
"Any key whose value is identical to the image default is removed, leaving only
genuinely overridden or newly added entries." -/
def stringMapSubtract (m1 m2 : GoMap String) : GoMap String :=
  fun k =>
    match m1 k with
    | some v1 => if m2 k = some v1 then none else some v1
    | none => none

/-- Modelled from the spec: `structMapSubtract` is not in the listed source.
The mapping "is treated as a key set; any key whose value is identical to the
image default is removed"; the values are the empty struct, so a key of both
maps is removed.  The result is an allocated map (the source inserts the bound
ports into it). -/
def structMapSubtract (m1 m2 : GoMap Unit) : GoMap Unit :=
  fun k =>
    match m1 k with
    | some v1 => if m2 k = some v1 then none else some v1
    | none => none

namespace Container

/-- The container after `c.containerInfo.Config` was overwritten by `config`. -/
def withConfig (c : Container) (info : ContainerInfo) (config : ContainerConfig) :
    Container :=
  { c with containerInfo := some { info with Config := config } }

/-- The runtimeConfig method.  `config` is the pointer `c.containerInfo.Config`, so
each assignment to a field of `config` is an assignment to the container's
own record; the first component of the result is the container after the
call, the second the outcome. -/
def runtimeConfig (c : Container) : Container × Outcome ContainerConfig :=
  match c.containerInfo with
  | none => (c, .panics .nilDereference)
  | some info =>
    match c.imageInfo with
    | none => (c, .panics .nilDereference)
    | some image =>
      let config := info.Config
      let imageConfig := image.Config
      let config :=
        if config.WorkingDir = imageConfig.WorkingDir then { config with WorkingDir := "" }
        else config
      let config :=
        if config.User = imageConfig.User then { config with User := "" } else config
      let config :=
        if sliceEqual config.Cmd imageConfig.Cmd then { config with Cmd := none } else config
      let config :=
        if sliceEqual config.Entrypoint imageConfig.Entrypoint then
          { config with Entrypoint := none }
        else config
      let config := { config with Env := sliceSubtract config.Env imageConfig.Env }
      let config := { config with Labels := stringMapSubtract config.Labels imageConfig.Labels }
      let config :=
        { config with Volumes := structMapSubtract config.Volumes imageConfig.Volumes }
      let config :=
        { config with
          ExposedPorts := structMapSubtract config.ExposedPorts imageConfig.ExposedPorts }
      match info.HostConfig with
      | none => (c.withConfig info config, .panics .nilDereference)
      | some hostConfig =>
        let config :=
          { config with ExposedPorts := config.ExposedPorts.insertKeysOf hostConfig.PortBindings }
        match (c.withConfig info config).ImageName with
        | .panics f => (c.withConfig info config, .panics f)
        | .returns name =>
          let config := { config with Image := name }
          (c.withConfig info config, .returns config)

end Container

/-! ## Words of the specification -/

/-- The value of label `k` on the container, `none` when the key is absent. -/
def labelOf (c : Container) (k : String) : Option String :=
  c.containerInfo.bind (fun info => info.Config.Labels k)

/-- The lifecycle-state string of the container. -/
def stateOf (c : Container) : Option String :=
  c.containerInfo.map (fun info => info.State.StateString)

/-- The container with its state string replaced by `s`. -/
def setState (c : Container) (s : String) : Container :=
  { c with containerInfo := c.containerInfo.map (fun info => { info with State := ⟨s⟩ }) }

/-- The reference with the default tag: unchanged when it has a ':'. -/
def withDefaultTag (s : String) : String :=
  if ':' ∈ s.data then s else s ++ ":latest"

/-- Whether the final path segment of an image reference (the part after the
last '/') has a ':', that is, whether the reference carries a tag. -/
def carriesTag (ref : String) : Bool :=
  (ref.data.reverse.takeWhile (fun ch => ch != '/')).contains ':'

/-- The configuration `cc` of `TestRunTickerTestContainers`.  The test names its
two label keys by constants that are outside the listed source; they are read
as "tugbot.test" and "tugbot.event.timer". -/
def testConfig : ContainerConfig :=
  { User := "", ExposedPorts := GoMap.empty, Env := [], Cmd := none, Image := "",
    Volumes := GoMap.empty, WorkingDir := "", Entrypoint := none,
    Labels := GoMap.ofList [("tugbot.test", "true"), ("tugbot.event.timer", "10s")] }

/-- The container `c` of `TestRunTickerTestContainers`: state "exited", nil image. -/
def testContainer : Container :=
  NewContainer
    (some { Id := "02131b95b737", Name := "My Test Container", Config := testConfig,
            State := ⟨"exited"⟩, HostConfig := none })
    none

/-- A container whose only label is the key "tugbot" with value "true". -/
def shortKeyContainer : Container :=
  NewContainer
    (some { Id := "a1", Name := "/agent",
            Config := { testConfig with Labels := GoMap.ofList [("tugbot", "true")] },
            State := ⟨"running"⟩, HostConfig := none })
    none

/-- A test container that tugbot created from another one. -/
def cloneContainer : Container :=
  NewContainer
    (some { Id := "b2", Name := "/clone",
            Config := { testConfig with
              Labels := GoMap.ofList [("tugbot.test", "true"), ("tugbot.created.from", "02131b95b737")] },
            State := ⟨"exited"⟩, HostConfig := none })
    none

/-- A container started from an untagged image of a registry with a port. -/
def registryPortContainer : Container :=
  NewContainer
    (some { Id := "c3", Name := "/app",
            Config := { testConfig with Image := "localhost:5000/app", Labels := GoMap.empty },
            State := ⟨"running"⟩, HostConfig := none })
    none

/-- A container with the zodiac label. -/
def zodiacInfo : ContainerInfo :=
  { Id := "d4", Name := "/web",
    Config := { testConfig with
      Image := "sha256:4fe2",
      Labels := GoMap.ofList [("tugbot.zodiac.original-image", "repo/web")] },
    State := ⟨"running"⟩, HostConfig := none }

/-! ## Sample containers and the closed form of the override -/

/-- Apply a function to the returned value. -/
def Outcome.map {α β : Type} (f : α → β) : Outcome α → Outcome β
  | .returns a => .returns (f a)
  | .panics e => .panics e

/-- The record that `runtimeConfig` leaves in `c.containerInfo.Config` once
every dereference has succeeded, field by field. -/
def overrideOf (config imageConfig : ContainerConfig) (hostConfig : HostConfig) :
    ContainerConfig :=
  { User := if config.User = imageConfig.User then "" else config.User
    ExposedPorts :=
      (structMapSubtract config.ExposedPorts imageConfig.ExposedPorts).insertKeysOf
        hostConfig.PortBindings
    Env := sliceSubtract config.Env imageConfig.Env
    Cmd := if sliceEqual config.Cmd imageConfig.Cmd then none else config.Cmd
    Image :=
      withDefaultTag
        (((stringMapSubtract config.Labels imageConfig.Labels) LabelZodiac).getD config.Image)
    Volumes := structMapSubtract config.Volumes imageConfig.Volumes
    WorkingDir := if config.WorkingDir = imageConfig.WorkingDir then "" else config.WorkingDir
    Entrypoint :=
      if sliceEqual config.Entrypoint imageConfig.Entrypoint then none else config.Entrypoint
    Labels := stringMapSubtract config.Labels imageConfig.Labels }

/-- Defaults of a web server image. -/
def webDefaults : ContainerConfig :=
  { User := "www", ExposedPorts := GoMap.ofList [("80/tcp", ())],
    Env := ["PATH=/usr/bin", "LANG=C"], Cmd := some ["nginx"], Image := "",
    Volumes := GoMap.ofList [("/data", ())], WorkingDir := "/srv",
    Entrypoint := some ["/entry.sh"],
    Labels := GoMap.ofList [("tugbot.zodiac.original-image", "repo/web"), ("maintainer", "ops")] }

/-- A host configuration without links and without bound ports. -/
def plainHost : HostConfig := { Links := [], PortBindings := GoMap.empty }

/-- A host configuration that binds port 80/tcp to host port 8080. -/
def boundHost : HostConfig :=
  { Links := [], PortBindings := GoMap.ofList [("80/tcp", [⟨"0.0.0.0", "8080"⟩])] }

/-- A test container deployed by zodiac: image "6f3c1a22" recorded, original
image "repo/web" in the zodiac label, which the image's own labels carry too. -/
def zodiacContainer : Container :=
  NewContainer
    (some { Id := "e5", Name := "/web", State := ⟨"exited"⟩, HostConfig := some plainHost,
            Config := { webDefaults with
              Image := "6f3c1a22",
              Labels := GoMap.ofList
                [("tugbot.zodiac.original-image", "repo/web"), ("tugbot.test", "true")] } })
    (some { Id := "6f3c1a22", Config := webDefaults })

/-- The image snapshot with the web server defaults. -/
def webImage : ImageInfo := { Id := "6f3c1a22", Config := webDefaults }

/-- A container that runs its image's defaults unchanged, with port 80/tcp bound. -/
def boundInfo : ContainerInfo :=
  { Id := "f6", Name := "/web2", State := ⟨"exited"⟩, HostConfig := some boundHost,
    Config := { webDefaults with Image := "repo/web:1.0" } }

/-- A container that overrides working directory and user, without bound ports. -/
def overrideInfo : ContainerInfo :=
  { Id := "a7", Name := "/web3", State := ⟨"exited"⟩, HostConfig := some plainHost,
    Config := { webDefaults with Image := "repo/web:1.0", WorkingDir := "/tmp", User := "root" } }

/-- A container with an image snapshot and without host configuration. -/
def noHostContainer : Container :=
  NewContainer
    (some { Id := "b8", Name := "/web4", State := ⟨"exited"⟩, HostConfig := none,
            Config := { webDefaults with Image := "repo/web:1.0" } })
    (some webImage)

/-! ## Strings: positions, slices, split

Positions are counted in characters.  The source cuts strings only at the
positions of ':' and '/', which are single bytes, so the pieces are the ones
that Go cuts at the byte offsets. -/

/-- First position, counted from `n`, at which `sub` starts; -1 when there is none. -/
def indexFrom (sub : List Char) : List Char → Nat → Int
  | [], n => if sub.isPrefixOf [] then (n : Int) else -1
  | c :: cs, n => if sub.isPrefixOf (c :: cs) then (n : Int) else indexFrom sub cs (n + 1)

/-- Go's `strings.Index(s, substr)`. -/
def stringsIndex (s substr : String) : Int := indexFrom substr.data s.data 0

/-- Last position, counted from `n`, at which `sub` starts; -1 when there is none. -/
def lastIndexFrom (sub : List Char) : List Char → Nat → Int
  | [], n => if sub.isPrefixOf [] then (n : Int) else -1
  | c :: cs, n =>
    let later := lastIndexFrom sub cs (n + 1)
    if later ≠ -1 then later else if sub.isPrefixOf (c :: cs) then (n : Int) else -1

/-- Go's `strings.LastIndex(s, substr)`. -/
def stringsLastIndex (s substr : String) : Int := lastIndexFrom substr.data s.data 0

/-- Go's slice expression `s[lo:hi]`; bounds outside `0 ≤ lo ≤ hi ≤ len(s)` panic. -/
def sliceString (s : String) (lo hi : Int) : Outcome String :=
  if 0 ≤ lo ∧ lo ≤ hi ∧ hi ≤ (s.length : Int) then
    .returns ⟨(s.data.drop lo.toNat).take (hi.toNat - lo.toNat)⟩
  else .panics .sliceBoundsOutOfRange

/-- The pieces of `strings.Split` for a non-empty separator: `skip` characters of
a separator are still to be passed over, `piece` is the current piece, reversed. -/
def splitFrom (sep : List Char) : List Char → Nat → List Char → List String
  | [], _, piece => [⟨piece.reverse⟩]
  | _ :: cs, skip + 1, piece => splitFrom sep cs skip piece
  | c :: cs, 0, piece =>
    if sep.isPrefixOf (c :: cs) then ⟨piece.reverse⟩ :: splitFrom sep cs (sep.length - 1) []
    else splitFrom sep cs 0 (c :: piece)

/-- Go's `strings.Split(s, sep)` for a non-empty `sep`. -/
def stringsSplit (s sep : String) : List String := splitFrom sep.data s.data 0 []

/-- Go's `fmt.Sprintf("%s:%s", name, alias)`. -/
def sprintfPair (name aliasPart : String) : String := name ++ ":" ++ aliasPart

namespace Container

/-- The loop of `Links`: `links = append(links, strings.Split(link, ":")[0])`. -/
def LinksLoop : List String → List String → Outcome (List String)
  | [], links => .returns links
  | link :: rest, links =>
    match stringsSplit link ":" with
    | [] => .panics .indexOutOfRange
    | name :: _ => LinksLoop rest (links ++ [name])

/-- Links: the names of the containers to which this container is linked. -/
def Links (c : Container) : Outcome (List String) :=
  match c.containerInfo with
  | none => .returns []
  | some info =>
    match info.HostConfig with
    | none => .returns []
    | some hostConfig => LinksLoop hostConfig.Links []

/-- The body of the loop of hostConfig on one link. -/
def hostConfigLink (link : String) : Outcome String :=
  match sliceString link 0 (stringsIndex link ":") with
  | .panics f => .panics f
  | .returns name =>
    match sliceString link (stringsLastIndex link "/") link.length with
    | .panics f => .panics f
    | .returns aliasPart => .returns (sprintfPair name aliasPart)

/-- The loop of hostConfig: the links after the loop, and the panic that ended it
if one did (the links before the failing one are rewritten already). -/
def hostConfigLoop : List String → List String × Option Fault
  | [] => ([], none)
  | link :: rest =>
    match hostConfigLink link with
    | .panics f => (link :: rest, some f)
    | .returns l => (l :: (hostConfigLoop rest).1, (hostConfigLoop rest).2)

/-- The container after `c.containerInfo.HostConfig.Links` was overwritten. -/
def withLinks (c : Container) (info : ContainerInfo) (hostConfig : HostConfig)
    (links : List String) : Container :=
  { c with containerInfo := some { info with HostConfig := some { hostConfig with Links := links } } }

/-- The hostConfig method.  `hostConfig` is the pointer `c.containerInfo.HostConfig`
and the loop assigns to `hostConfig.Links[i]`, so the links of the container's
own record are rewritten; the first component is the container after the call. -/
def hostConfig (c : Container) : Container × Outcome HostConfig :=
  match c.containerInfo with
  | none => (c, .panics .nilDereference)
  | some info =>
    match info.HostConfig with
    | none => (c, .panics .nilDereference)
    | some hostConfig =>
      match hostConfigLoop hostConfig.Links with
      | (links, some f) => (c.withLinks info hostConfig links, .panics f)
      | (links, none) =>
        (c.withLinks info hostConfig links, .returns { hostConfig with Links := links })

end Container

/-- A container linked to a redis container, as an inspect call reports the link. -/
def redisHost : HostConfig :=
  { Links := ["/redis:/wordpress/redis", "/db:/wordpress/db"], PortBindings := GoMap.empty }

/-- The container with those links. -/
def linkedInfo : ContainerInfo :=
  { Id := "c9", Name := "/wordpress", State := ⟨"exited"⟩, HostConfig := some redisHost,
    Config := testConfig }

/-- The suffix of a string that starts at its last `ch`; empty when there is no `ch`. -/
def fromLast (ch : Char) : List Char → List Char
  | [] => []
  | c :: cs => if ch ∈ cs then fromLast ch cs else if c = ch then c :: cs else []

/-- The part of a string after its last `ch`; the whole string when there is no `ch`. -/
def afterLast (ch : Char) : List Char → List Char
  | [] => []
  | c :: cs => if ch ∈ cs then afterLast ch cs else if c = ch then cs else c :: cs

/-- The part of a link before its first ':' (the whole link when it has no ':'). -/
def namePart (link : String) : String := ⟨link.data.takeWhile (fun ch => ch != ':')⟩

/-- A link is well formed when it contains ':' and '/'. -/
def wellFormed (link : String) : Prop := ':' ∈ link.data ∧ '/' ∈ link.data

instance (link : String) : Decidable (wellFormed link) := by
  unfold wellFormed
  exact inferInstance

/-- The link that the loop body of hostConfig writes for a well-formed link: its
name part, a ':' and the part of the link from its last '/' on. -/
def rewrittenLink (link : String) : String :=
  namePart link ++ ":" ++ ⟨fromLast '/' link.data⟩

/-- The part of a link after its first ':' (empty when it has no ':'). -/
def aliasPart (link : String) : String :=
  ⟨(link.data.dropWhile (fun ch => ch != ':')).drop 1⟩

/-- A host configuration whose second link has neither ':' nor '/'. -/
def brokenHost : HostConfig :=
  { Links := ["/redis:/wordpress/redis", "redis"], PortBindings := GoMap.empty }

/-- A container with the broken host configuration. -/
def brokenInfo : ContainerInfo :=
  { Id := "d0", Name := "/wordpress2", State := ⟨"exited"⟩, HostConfig := some brokenHost,
    Config := testConfig }

/-- A test container that also carries the agent label. -/
def agentTestContainer : Container :=
  NewContainer
    (some { Id := "e1", Name := "/tugbot", State := ⟨"exited"⟩, HostConfig := none,
            Config := { testConfig with
              Labels := GoMap.ofList [("gaiadocker.tugbot", "true"), ("tugbot.test", "true")] } })
    none

/-- An image whose default labels mark its containers as tests. -/
def testImage : ImageInfo :=
  { Id := "77aa01", Config := { webDefaults with Labels := GoMap.ofList [("tugbot.test", "true")] } }

/-- An exited test container that has its "tugbot.test" label from its image. -/
def inheritedInfo : ContainerInfo :=
  { Id := "f2", Name := "/suite", State := ⟨"exited"⟩, HostConfig := some plainHost,
    Config := { webDefaults with
      Image := "repo/suite:2", Labels := GoMap.ofList [("tugbot.test", "true")] } }

/-- The labels that IsTugbot, IsTugbotCandidate, StopSignal and ImageName read. -/
def classifierLabels : List String :=
  [LabelTugbot, LabelTest, LabelCreatedFrom, LabelStopSignal, LabelZodiac]

/-! ## The polling driver

`RunTickerTestContainers` is outside the listed source (its tests are listed).
The driver is modelled from section 4.2 of the specification as a machine that
consumes what happens to it: timer ticks with the answer of the list call, and
cancellation.  Intervals of time are not modelled. -/

/-- Modelled from the spec: `RunTickerTestContainers` is not in the listed source.
"State machine with two states: Running and Stopped"; Stopped is the state in
which the call has returned. -/
inductive Phase where
  | Running
  | Stopped
  deriving DecidableEq, Repr

/-- Modelled from the spec: what the driver of `RunTickerTestContainers` meets.
`tick listing`: the timer fires, `ListContainers` answers `listing` (an error or
the listed containers) and the pass runs to its end.  `tickCancelled listing
done`: the same, and cancellation is observed between two candidates, after
`done` listed containers were processed.  `cancel`: cancellation is observed
while waiting for the next tick. -/
inductive Event where
  | tick (listing : Except String (List Container))
  | tickCancelled (listing : Except String (List Container)) (done : Nat)
  | cancel

/-- Whether the event is an observation of cancellation. -/
def Event.isCancellation : Event → Bool
  | .tick _ => false
  | .tickCancelled _ _ => true
  | .cancel => true

/-- Whether the event is a tick on which `ListContainers` returns containers. -/
def Event.listSucceeds : Event → Bool
  | .tick (.ok _) => true
  | .tickCancelled (.ok _) _ => true
  | _ => false

/-- Modelled from the spec: the state of `RunTickerTestContainers`: its phase and
the containers passed to `StartContainerFrom` so far, oldest first. -/
structure Driver where
  phase : Phase
  launched : List Container

/-- Modelled from the spec: the pass of `RunTickerTestContainers` over the listed
containers.  "For each returned container, apply IsAgentSelf (skip if true)
then IsCandidate; for every container that passes both, request re-launch
(StartContainerFrom)"; a failed start is only logged.  A container on which a
check returns no value passes neither. -/
def launchPass : List Container → List Container → List Container
  | [], launched => launched
  | c :: rest, launched =>
    match c.IsTugbot with
    | .returns false =>
      match c.IsTugbotCandidate with
      | .returns true => launchPass rest (launched ++ [c])
      | _ => launchPass rest launched
    | _ => launchPass rest launched

/-- Modelled from the spec: one step of `RunTickerTestContainers`.  A failed list
call is logged and the next tick awaited; cancellation is the only way to
Stopped, and Stopped is terminal. -/
def step (d : Driver) (e : Event) : Driver :=
  match d.phase with
  | .Stopped => d
  | .Running =>
    match e with
    | .cancel => { d with phase := .Stopped }
    | .tick (.error _) => d
    | .tick (.ok containers) => { d with launched := launchPass containers d.launched }
    | .tickCancelled (.error _) _ => { d with phase := .Stopped }
    | .tickCancelled (.ok containers) done =>
      { phase := .Stopped, launched := launchPass (containers.take done) d.launched }

/-- Modelled from the spec: `RunTickerTestContainers` is not in the listed source.
The driver starts Running with nothing launched and takes the events in order. -/
def RunTickerTestContainers (events : List Event) : Driver :=
  events.foldl step { phase := .Running, launched := [] }

/-- Whether a container passes both checks of the pass. -/
def passesBoth (c : Container) : Bool :=
  decide (c.IsTugbot = .returns false) && decide (c.IsTugbotCandidate = .returns true)

/-- The container `c1` of the test with two different listings. -/
def testC1 : Container :=
  NewContainer
    (some { Id := "c1id", Name := "c1", Config := testConfig, State := ⟨"exited"⟩,
            HostConfig := none })
    none

/-- The container `c2` of that test. -/
def testC2 : Container :=
  NewContainer
    (some { Id := "c2id", Name := "c2", Config := testConfig, State := ⟨"exited"⟩,
            HostConfig := none })
    none

/-! ## Basic facts -/

open Container

theorem len_eq_zero_iff (s : String) : len s = 0 ↔ s = "" := by
  cases s with
  | mk cs =>
    cases cs with
    | nil => simp [len, String.utf8ByteSize, String.utf8ByteSize.go]
    | cons c cs =>
      have hc := Char.utf8Size_pos c
      simp only [len, String.utf8ByteSize, String.utf8ByteSize.go]
      constructor
      · omega
      · intro h
        exact absurd (congrArg String.data h) (by simp)

theorem index_eq (m : GoMap String) (k : String) :
    m.index k = ((m k).getD "", (m k).isSome) := by
  unfold GoMap.index
  cases m k <;> rfl

theorem stringsContains_colon (s : String) :
    stringsContains s ":" = true ↔ ':' ∈ s.data := by
  have key : ∀ l : List Char,
      (l.tails.any (fun t => [':'].isPrefixOf t) = true) ↔ ':' ∈ l := by
    intro l
    induction l with
    | nil => simp [List.isPrefixOf]
    | cons a l ih =>
      rw [List.tails, List.any_cons, Bool.or_eq_true, ih, List.mem_cons]
      have h : ([':'].isPrefixOf (a :: l) = true) ↔ ':' = a := by
        simp only [List.isPrefixOf, Bool.and_true, beq_iff_eq]
      rw [h]
  exact key s.data

theorem IsTugbotCandidate_info (stale : Bool) (info : ContainerInfo) (img : Option ImageInfo) :
    IsTugbotCandidate ⟨stale, some info, img⟩ =
      .returns (decide (info.Config.Labels LabelTest = some "true") &&
        (decide (info.Config.Labels LabelCreatedFrom = none) ||
          decide (info.Config.Labels LabelCreatedFrom = some "")) &&
        (info.State.StateString == "exited")) := by
  simp only [IsTugbotCandidate, index_eq]
  cases h1 : info.Config.Labels LabelTest <;> cases h2 : info.Config.Labels LabelCreatedFrom <;>
    simp [len_eq_zero_iff] <;> split_ifs <;> simp [*]

/-! ## The classifier -/

/-- C1: IsTugbotCandidate returns true exactly when the label "tugbot.test" has
value "true", the label "tugbot.created.from" is absent or empty, and the state
string is "exited".  With the two label conditions in place every other state
string gives false, and the attached image snapshot plays no part. -/
theorem IsTugbotCandidate_iff (c : Container) :
    (c.IsTugbotCandidate = .returns true ↔
      labelOf c "tugbot.test" = some "true" ∧
      (labelOf c "tugbot.created.from" = none ∨ labelOf c "tugbot.created.from" = some "") ∧
      stateOf c = some "exited") ∧
    (∀ s : String, labelOf c "tugbot.test" = some "true" →
      (labelOf c "tugbot.created.from" = none ∨ labelOf c "tugbot.created.from" = some "") →
      s ≠ "exited" → (setState c s).IsTugbotCandidate = .returns false) ∧
    (∀ img : Option ImageInfo,
      ({ c with imageInfo := img } : Container).IsTugbotCandidate = c.IsTugbotCandidate) := by
  rcases c with ⟨stale, _ | info, img⟩
  · simp [IsTugbotCandidate, labelOf, stateOf]
  · refine ⟨?_, ?_, ?_⟩
    · simp [IsTugbotCandidate_info, labelOf, stateOf, LabelTest, LabelCreatedFrom, and_assoc]
    · intro s h1 h2 hs
      simp only [labelOf, Option.bind] at h1 h2
      simp [setState, IsTugbotCandidate_info, LabelTest, LabelCreatedFrom, hs]
    · intro img2
      simp [IsTugbotCandidate_info]

/-- C1 on the container of the ticker test, which has a nil image: candidate when
"exited", not a candidate when "paused", "created" or "Exited". -/
theorem IsTugbotCandidate_iff_witness :
    testContainer.IsTugbotCandidate = .returns true ∧
    (setState testContainer "paused").IsTugbotCandidate = .returns false ∧
    (setState testContainer "created").IsTugbotCandidate = .returns false ∧
    (setState testContainer "Exited").IsTugbotCandidate = .returns false :=
  have h1 : labelOf testContainer "tugbot.test" = some "true" := by decide
  have h2 : labelOf testContainer "tugbot.created.from" = none ∨
      labelOf testContainer "tugbot.created.from" = some "" := Or.inl (by decide)
  ⟨(IsTugbotCandidate_iff testContainer).1.2 ⟨h1, h2, by decide⟩,
   (IsTugbotCandidate_iff testContainer).2.1 "paused" h1 h2 (by decide),
   (IsTugbotCandidate_iff testContainer).2.1 "created" h1 h2 (by decide),
   (IsTugbotCandidate_iff testContainer).2.1 "Exited" h1 h2 (by decide)⟩

/-- C2 fails for the key "tugbot": a container that carries the label "tugbot"
with value "true" is not recognised as the agent. -/
theorem IsTugbot_key_counterexample :
    labelOf shortKeyContainer "tugbot" = some "true" ∧
    shortKeyContainer.IsTugbot = .returns false := by
  decide

/-- C2, amended: IsTugbot returns true exactly when the label mapping has the
key "gaiadocker.tugbot" with value "true". -/
theorem IsTugbot_iff (c : Container) :
    c.IsTugbot = .returns true ↔ labelOf c "gaiadocker.tugbot" = some "true" := by
  rcases c with ⟨stale, _ | info, img⟩
  · simp [IsTugbot, labelOf]
  · simp only [IsTugbot, labelOf, index_eq, Option.bind, LabelTugbot]
    cases h : info.Config.Labels "gaiadocker.tugbot" <;> simp

/-- C3: a container whose label "tugbot.created.from" has a non-empty value is
never a candidate, whatever its other labels and its state are. -/
theorem IsTugbotCandidate_created_from (c : Container) (v : String)
    (h : labelOf c "tugbot.created.from" = some v) (hv : v ≠ "") :
    c.IsTugbotCandidate = .returns false := by
  rcases c with ⟨stale, _ | info, img⟩
  · simp [labelOf] at h
  · simp only [labelOf, Option.bind] at h
    simp [IsTugbotCandidate_info, LabelCreatedFrom, h, hv]

/-- C3 on a container that has "tugbot.test" = "true" and state "exited". -/
theorem IsTugbotCandidate_created_from_witness :
    labelOf cloneContainer "tugbot.test" = some "true" ∧
    stateOf cloneContainer = some "exited" ∧
    cloneContainer.IsTugbotCandidate = .returns false :=
  ⟨by decide, by decide,
   IsTugbotCandidate_created_from cloneContainer "02131b95b737" (by decide) (by decide)⟩

theorem ImageName_info (stale : Bool) (info : ContainerInfo) (img : Option ImageInfo) :
    ImageName ⟨stale, some info, img⟩ =
      .returns (withDefaultTag ((info.Config.Labels LabelZodiac).getD info.Config.Image)) := by
  simp only [ImageName, index_eq, withDefaultTag, sprintfLatest]
  cases h : info.Config.Labels LabelZodiac <;>
    by_cases hc : ':' ∈ (((info.Config.Labels LabelZodiac).getD info.Config.Image)).data <;>
    simp_all [stringsContains_colon]

/-- C4: ImageName is the default-tag function applied to the zodiac label when
that key is present (also with an empty value) and to the recorded image
reference otherwise; with the zodiac label present the recorded image reference
has no influence on the result. -/
theorem ImageName_eq (stale : Bool) (info : ContainerInfo) (img : Option ImageInfo) :
    ImageName ⟨stale, some info, img⟩ =
      .returns (withDefaultTag
        (match info.Config.Labels "tugbot.zodiac.original-image" with
         | some v => v
         | none => info.Config.Image)) ∧
    (∀ v : String, info.Config.Labels "tugbot.zodiac.original-image" = some v →
      ∀ image2 : String,
        ImageName ⟨stale, some { info with Config := { info.Config with Image := image2 } }, img⟩ =
          ImageName ⟨stale, some info, img⟩) := by
  refine ⟨?_, ?_⟩
  · rw [ImageName_info, LabelZodiac]
    cases info.Config.Labels "tugbot.zodiac.original-image" <;> rfl
  · intro v hv image2
    simp [ImageName_info, LabelZodiac, hv]

/-- C4 on a container with zodiac label "repo/web". -/
theorem ImageName_eq_witness :
    ImageName ⟨false, some zodiacInfo, none⟩ = .returns "repo/web:latest" ∧
    ImageName ⟨false, some { zodiacInfo with Config := { zodiacInfo.Config with Image := "other:1.2" } },
      none⟩ = ImageName ⟨false, some zodiacInfo, none⟩ :=
  ⟨(ImageName_eq false zodiacInfo none).1.trans (by decide),
   (ImageName_eq false zodiacInfo none).2 "repo/web" (by decide) "other:1.2"⟩

/-- C5 at the reference "localhost:5000/app": it carries no tag, there is no
zodiac label, and ImageName returns it unchanged instead of appending ":latest". -/
theorem ImageName_registry_port :
    carriesTag "localhost:5000/app" = false ∧
    labelOf registryPortContainer "tugbot.zodiac.original-image" = none ∧
    registryPortContainer.ImageName = .returns "localhost:5000/app" ∧
    registryPortContainer.ImageName ≠ .returns "localhost:5000/app:latest" := by
  decide

theorem runtimeConfig_full (stale : Bool) (info : ContainerInfo) (image : ImageInfo)
    (hostConfig : HostConfig) (h : info.HostConfig = some hostConfig) :
    runtimeConfig ⟨stale, some info, some image⟩ =
      (⟨stale, some { info with Config := overrideOf info.Config image.Config hostConfig },
          some image⟩,
        .returns (overrideOf info.Config image.Config hostConfig)) := by
  simp only [runtimeConfig, h, withConfig, ImageName_info, overrideOf]
  split_ifs <;> rfl

theorem withDefaultTag_ne_empty (s : String) : withDefaultTag s ≠ "" := by
  unfold withDefaultTag
  split_ifs with h
  · intro hs
    simp [hs] at h
  · intro hs
    have hl := congrArg String.length hs
    simp [String.length_append] at hl
    exact absurd hl.2 (by decide)

/-! ## The override configuration -/

/-- C6 fails: for the container of the ticker test, which has no image snapshot,
runtimeConfig aborts with a nil dereference; it produces no error result. -/
theorem runtimeConfig_nil_image_counterexample :
    testContainer.imageInfo = none ∧
    testContainer.runtimeConfig.2 = .panics .nilDereference :=
  ⟨rfl, rfl⟩

/-- C6, amended: for every container without image snapshot runtimeConfig
returns no configuration; the call ends in a nil dereference and leaves the
container as it was. -/
theorem runtimeConfig_nil_image (c : Container) (h : c.imageInfo = none) :
    c.runtimeConfig = (c, .panics .nilDereference) := by
  rcases c with ⟨stale, _ | info, img⟩
  · rfl
  · subst h
    rfl

/-- C6, amended, on a container with container info and a nil image. -/
theorem runtimeConfig_nil_image_witness :
    cloneContainer.runtimeConfig = (cloneContainer, .panics .nilDereference) :=
  runtimeConfig_nil_image cloneContainer rfl

/-- C7 at a container whose zodiac label is also a default label of its image:
before the call ImageName is "repo/web:latest", and the configuration that
runtimeConfig returns has image reference "6f3c1a22:latest". -/
theorem runtimeConfig_image_after_label_subtraction :
    zodiacContainer.ImageName = .returns "repo/web:latest" ∧
    zodiacContainer.runtimeConfig.2.map (fun cfg => cfg.Image) = .returns "6f3c1a22:latest" := by
  decide

/-- C8 fails with a bound port: the container runs its image's defaults
unchanged and binds 80/tcp, and the returned exposed ports contain 80/tcp. -/
theorem runtimeConfig_defaults_counterexample :
    boundInfo.Config.WorkingDir = webImage.Config.WorkingDir ∧
    boundInfo.Config.User = webImage.Config.User ∧
    boundInfo.Config.Cmd = webImage.Config.Cmd ∧
    boundInfo.Config.Entrypoint = webImage.Config.Entrypoint ∧
    boundInfo.Config.Env = webImage.Config.Env ∧
    boundInfo.Config.Labels = webImage.Config.Labels ∧
    boundInfo.Config.Volumes = webImage.Config.Volumes ∧
    boundInfo.Config.ExposedPorts = webImage.Config.ExposedPorts ∧
    (runtimeConfig ⟨false, some boundInfo, some webImage⟩).2.map
      (fun cfg => cfg.ExposedPorts "80/tcp") = .returns (some ()) :=
  ⟨rfl, rfl, rfl, rfl, rfl, rfl, rfl, rfl, by decide⟩

/-- C8, amended: when the recorded configuration equals the image defaults in
every diffable field and the container has a host configuration, runtimeConfig
returns a configuration with working directory and user "", command and
entrypoint absent, environment, labels and volumes empty, and exposed ports
that are exactly the keys of the port-binding map; the image reference is set. -/
theorem runtimeConfig_defaults (stale : Bool) (info : ContainerInfo) (image : ImageInfo)
    (hostConfig : HostConfig) (hHost : info.HostConfig = some hostConfig)
    (hDir : info.Config.WorkingDir = image.Config.WorkingDir)
    (hUser : info.Config.User = image.Config.User)
    (hCmd : info.Config.Cmd = image.Config.Cmd)
    (hEntry : info.Config.Entrypoint = image.Config.Entrypoint)
    (hEnv : info.Config.Env = image.Config.Env)
    (hLabels : info.Config.Labels = image.Config.Labels)
    (hVolumes : info.Config.Volumes = image.Config.Volumes)
    (hPorts : info.Config.ExposedPorts = image.Config.ExposedPorts) :
    ∃ cfg : ContainerConfig,
      (runtimeConfig ⟨stale, some info, some image⟩).2 = .returns cfg ∧
      cfg.WorkingDir = "" ∧ cfg.User = "" ∧ cfg.Cmd = none ∧ cfg.Entrypoint = none ∧
      cfg.Env = [] ∧ (∀ k, cfg.Labels k = none) ∧ (∀ k, cfg.Volumes k = none) ∧
      (∀ p, cfg.ExposedPorts p = if hostConfig.PortBindings.hasKey p then some () else none) ∧
      cfg.Image ≠ "" := by
  refine ⟨_, by rw [runtimeConfig_full stale info image hostConfig hHost], ?_⟩
  refine ⟨?_, ?_, ?_, ?_, ?_, ?_, ?_, ?_, ?_⟩
  · simp [overrideOf, hDir]
  · simp [overrideOf, hUser]
  · simp [overrideOf, hCmd, sliceEqual]
  · simp [overrideOf, hEntry, sliceEqual]
  · simp [overrideOf, hEnv, sliceSubtract]
  · intro k
    simp only [overrideOf, hLabels, stringMapSubtract]
    cases image.Config.Labels k <;> simp
  · intro k
    simp only [overrideOf, hVolumes, structMapSubtract]
    cases image.Config.Volumes k <;> simp
  · intro p
    simp only [overrideOf, hPorts, structMapSubtract, GoMap.insertKeysOf]
    cases image.Config.ExposedPorts p <;> simp
  · exact withDefaultTag_ne_empty _

/-- C8, amended, on the container that binds 80/tcp. -/
theorem runtimeConfig_defaults_witness :
    ∃ cfg : ContainerConfig,
      (runtimeConfig ⟨false, some boundInfo, some webImage⟩).2 = .returns cfg ∧
      cfg.WorkingDir = "" ∧ cfg.User = "" ∧ cfg.Cmd = none ∧ cfg.Entrypoint = none ∧
      cfg.Env = [] ∧ (∀ k, cfg.Labels k = none) ∧ (∀ k, cfg.Volumes k = none) ∧
      (∀ p, cfg.ExposedPorts p = if boundHost.PortBindings.hasKey p then some () else none) ∧
      cfg.Image ≠ "" :=
  runtimeConfig_defaults false boundInfo webImage boundHost rfl rfl rfl rfl rfl rfl rfl rfl rfl

/-- C9: with an image snapshot and a host configuration runtimeConfig returns a
configuration whose exposed ports contain every key of the port-binding map,
and every exposed port is such a key or an exposed port of the container that
is not an image default. -/
theorem runtimeConfig_exposed_ports (stale : Bool) (info : ContainerInfo) (image : ImageInfo)
    (hostConfig : HostConfig) (hHost : info.HostConfig = some hostConfig) :
    ∃ cfg : ContainerConfig,
      (runtimeConfig ⟨stale, some info, some image⟩).2 = .returns cfg ∧
      (∀ p, hostConfig.PortBindings.hasKey p = true → cfg.ExposedPorts p = some ()) ∧
      (∀ p, cfg.ExposedPorts p ≠ none →
        hostConfig.PortBindings.hasKey p = true ∨
          (info.Config.ExposedPorts p ≠ none ∧ image.Config.ExposedPorts p = none)) := by
  refine ⟨_, by rw [runtimeConfig_full stale info image hostConfig hHost], ?_, ?_⟩
  · intro p hp
    simp [overrideOf, GoMap.insertKeysOf, hp]
  · intro p hp
    by_cases hb : hostConfig.PortBindings.hasKey p = true
    · exact Or.inl hb
    · right
      simp only [overrideOf, GoMap.insertKeysOf, hb, structMapSubtract] at hp
      cases h1 : info.Config.ExposedPorts p <;> cases h2 : image.Config.ExposedPorts p <;>
        simp_all

/-- C9 on the container whose only exposed port is an image default and is bound:
the subtraction leaves no exposed port and the bound port is entered. -/
theorem runtimeConfig_exposed_ports_witness :
    ∃ cfg : ContainerConfig,
      (runtimeConfig ⟨false, some boundInfo, some webImage⟩).2 = .returns cfg ∧
      (∀ p, boundHost.PortBindings.hasKey p = true → cfg.ExposedPorts p = some ()) ∧
      (∀ p, cfg.ExposedPorts p ≠ none →
        boundHost.PortBindings.hasKey p = true ∨
          (boundInfo.Config.ExposedPorts p ≠ none ∧ webImage.Config.ExposedPorts p = none)) :=
  runtimeConfig_exposed_ports false boundInfo webImage boundHost rfl

/-- C10 fails without host configuration: the container has an image snapshot
and the image's working directory and user, and runtimeConfig returns nothing. -/
theorem runtimeConfig_scalars_counterexample :
    noHostContainer.imageInfo.isSome = true ∧
    noHostContainer.runtimeConfig.2 = .panics .nilDereference :=
  ⟨rfl, rfl⟩

/-- C10, amended: with an image snapshot and a host configuration runtimeConfig
returns working directory "" when the container's working directory equals the
image default and the container's own working directory otherwise, and the
same for the user; each outcome is a function of that field alone. -/
theorem runtimeConfig_scalars (stale : Bool) (info : ContainerInfo) (image : ImageInfo)
    (hostConfig : HostConfig) (hHost : info.HostConfig = some hostConfig) :
    ∃ cfg : ContainerConfig,
      (runtimeConfig ⟨stale, some info, some image⟩).2 = .returns cfg ∧
      cfg.WorkingDir =
        (if info.Config.WorkingDir = image.Config.WorkingDir then "" else info.Config.WorkingDir) ∧
      cfg.User = (if info.Config.User = image.Config.User then "" else info.Config.User) :=
  ⟨_, by rw [runtimeConfig_full stale info image hostConfig hHost], rfl, rfl⟩

/-- C10, amended, on a container that overrides both fields. -/
theorem runtimeConfig_scalars_witness :
    ∃ cfg : ContainerConfig,
      (runtimeConfig ⟨false, some overrideInfo, some webImage⟩).2 = .returns cfg ∧
      cfg.WorkingDir = "/tmp" ∧ cfg.User = "root" :=
  (runtimeConfig_scalars false overrideInfo webImage plainHost rfl).imp
    (fun _ h => ⟨h.1, h.2.1.trans (by decide), h.2.2.trans (by decide)⟩)

theorem indexFrom_colon (l : List Char) (n : Nat) :
    indexFrom [':'] l n =
      if ':' ∈ l then ((n + (l.takeWhile (fun ch => ch != ':')).length : Nat) : Int) else -1 := by
  induction l generalizing n with
  | nil => simp [indexFrom, List.isPrefixOf]
  | cons c cs ih =>
    by_cases hc : c = ':'
    · subst hc
      simp [indexFrom, List.isPrefixOf]
    · have hc2 : ¬ ':' = c := fun h => hc h.symm
      simp only [indexFrom, List.isPrefixOf, Bool.and_true, beq_iff_eq, hc2, if_false, ih,
        List.mem_cons, false_or]
      split_ifs with h
      · simp only [List.takeWhile_cons, bne_iff_ne, ne_eq, hc, not_false_eq_true, decide_True,
          if_true, List.length_cons]
        push_cast
        omega
      · rfl

theorem fromLast_length_le (ch : Char) (l : List Char) : (fromLast ch l).length ≤ l.length := by
  induction l with
  | nil => simp [fromLast]
  | cons c cs ih =>
    simp only [fromLast]
    split_ifs <;> simp
    omega

theorem drop_fromLast (ch : Char) (l : List Char) :
    l.drop (l.length - (fromLast ch l).length) = fromLast ch l := by
  induction l with
  | nil => simp [fromLast]
  | cons c cs ih =>
    have hle := fromLast_length_le ch cs
    simp only [fromLast]
    split_ifs with h1 h2
    · have : (c :: cs).length - (fromLast ch cs).length = (cs.length - (fromLast ch cs).length) + 1 := by
        simp; omega
      rw [this, List.drop_succ_cons, ih]
    · simp
    · simp

theorem lastIndexFrom_slash (l : List Char) (n : Nat) :
    lastIndexFrom ['/'] l n =
      if '/' ∈ l then ((n + (l.length - (fromLast '/' l).length) : Nat) : Int) else -1 := by
  induction l generalizing n with
  | nil => simp [lastIndexFrom, List.isPrefixOf]
  | cons c cs ih =>
    have hle := fromLast_length_le '/' cs
    simp only [lastIndexFrom, ih, List.isPrefixOf, Bool.and_true, beq_iff_eq, fromLast,
      List.mem_cons]
    by_cases h1 : '/' ∈ cs
    · simp only [h1, if_true, or_true, List.length_cons]
      have hne : ((n + 1 + (cs.length - (fromLast '/' cs).length) : Nat) : Int) ≠ -1 := by
        intro h
        omega
      rw [if_pos hne]
      congr 1
      omega
    · by_cases hc : c = '/'
      · subst hc
        simp [h1]
      · have hc2 : ¬ '/' = c := fun h => hc h.symm
        simp [h1, hc, hc2]

theorem sliceString_name (l : List Char) (h : ':' ∈ l) :
    sliceString ⟨l⟩ 0 (stringsIndex ⟨l⟩ ":") = .returns (namePart ⟨l⟩) := by
  have hlen : (l.takeWhile (fun ch => ch != ':')).length ≤ l.length :=
    (List.takeWhile_prefix _).length_le
  have htake : l.take (l.takeWhile (fun ch => ch != ':')).length = l.takeWhile (fun ch => ch != ':') :=
    (List.prefix_iff_eq_take.mp (List.takeWhile_prefix _)).symm
  have hidx : stringsIndex ⟨l⟩ ":" = ((l.takeWhile (fun ch => ch != ':')).length : Int) := by
    show indexFrom [':'] l 0 = _
    rw [indexFrom_colon, if_pos h]
    simp
  rw [hidx, sliceString, if_pos]
  · simp [namePart, htake]
  · refine ⟨le_refl _, by omega, ?_⟩
    simp only [String.length]
    exact_mod_cast hlen

theorem sliceString_no_colon (l : List Char) (h : ':' ∉ l) :
    sliceString ⟨l⟩ 0 (stringsIndex ⟨l⟩ ":") = .panics .sliceBoundsOutOfRange := by
  have hidx : stringsIndex ⟨l⟩ ":" = -1 := by
    show indexFrom [':'] l 0 = _
    rw [indexFrom_colon, if_neg h]
  rw [hidx, sliceString, if_neg]
  omega

theorem sliceString_alias (l : List Char) (h : '/' ∈ l) :
    sliceString ⟨l⟩ (stringsLastIndex ⟨l⟩ "/") (String.length ⟨l⟩) =
      .returns ⟨fromLast '/' l⟩ := by
  have hle := fromLast_length_le '/' l
  have hidx : stringsLastIndex ⟨l⟩ "/" = ((l.length - (fromLast '/' l).length : Nat) : Int) := by
    show lastIndexFrom ['/'] l 0 = _
    rw [lastIndexFrom_slash, if_pos h]
    simp
  rw [hidx, sliceString, if_pos]
  · simp only [String.length, Int.toNat_ofNat, drop_fromLast]
    congr 2
    apply List.take_of_length_le
    omega
  · simp only [String.length]
    omega

theorem sliceString_no_slash (l : List Char) (h : '/' ∉ l) :
    sliceString ⟨l⟩ (stringsLastIndex ⟨l⟩ "/") (String.length ⟨l⟩) =
      .panics .sliceBoundsOutOfRange := by
  have hidx : stringsLastIndex ⟨l⟩ "/" = -1 := by
    show lastIndexFrom ['/'] l 0 = _
    rw [lastIndexFrom_slash, if_neg h]
  rw [hidx, sliceString, if_neg]
  omega

theorem hostConfigLink_eq (link : String) :
    hostConfigLink link =
      if wellFormed link then .returns (rewrittenLink link)
      else .panics .sliceBoundsOutOfRange := by
  cases link with
  | mk l =>
    unfold hostConfigLink wellFormed
    by_cases h1 : ':' ∈ l
    · by_cases h2 : '/' ∈ l
      · rw [sliceString_name l h1, if_pos ⟨h1, h2⟩]
        simp only [sliceString_alias l h2]
        rfl
      · rw [sliceString_name l h1, if_neg (fun h => h2 h.2)]
        simp only [sliceString_no_slash l h2]
    · rw [sliceString_no_colon l h1, if_neg (fun h => h1 h.1)]

theorem hostConfigLoop_wellFormed (links : List String) (h : ∀ link ∈ links, wellFormed link) :
    hostConfigLoop links = (links.map rewrittenLink, none) := by
  induction links with
  | nil => rfl
  | cons link rest ih =>
    have h1 : wellFormed link := h link (List.mem_cons_self _ _)
    have h2 := ih (fun l hl => h l (List.mem_cons_of_mem _ hl))
    simp [hostConfigLoop, hostConfigLink_eq, h1, h2]

theorem hostConfigLoop_illFormed (links : List String) (h : ∃ link ∈ links, ¬ wellFormed link) :
    (hostConfigLoop links).2 = some .sliceBoundsOutOfRange := by
  induction links with
  | nil => simp at h
  | cons link rest ih =>
    by_cases h1 : wellFormed link
    · have h2 : ∃ l ∈ rest, ¬ wellFormed l := by
        obtain ⟨l, hl, hw⟩ := h
        rcases List.mem_cons.mp hl with rfl | hl
        · exact absurd h1 hw
        · exact ⟨l, hl, hw⟩
      simp [hostConfigLoop, hostConfigLink_eq, h1, ih h2]
    · simp [hostConfigLoop, hostConfigLink_eq, h1]

theorem takeWhile_append_stop (p : Char → Bool) (a b : List Char) (c : Char)
    (ha : ∀ x ∈ a, p x = true) (hc : p c = false) :
    (a ++ c :: b).takeWhile p = a := by
  induction a with
  | nil => simp [List.takeWhile_cons, hc]
  | cons x xs ih =>
    have hx : p x = true := ha x (List.mem_cons_self _ _)
    simp [List.takeWhile_cons, hx, ih (fun y hy => ha y (List.mem_cons_of_mem _ hy))]

theorem dropWhile_append_stop (p : Char → Bool) (a b : List Char) (c : Char)
    (ha : ∀ x ∈ a, p x = true) (hc : p c = false) :
    (a ++ c :: b).dropWhile p = c :: b := by
  induction a with
  | nil => simp [List.dropWhile_cons, hc]
  | cons x xs ih =>
    have hx : p x = true := ha x (List.mem_cons_self _ _)
    simp [List.dropWhile_cons, hx, ih (fun y hy => ha y (List.mem_cons_of_mem _ hy))]

theorem fromLast_eq_cons_afterLast (ch : Char) (l : List Char) (h : ch ∈ l) :
    fromLast ch l = ch :: afterLast ch l := by
  induction l with
  | nil => simp at h
  | cons c cs ih =>
    simp only [fromLast, afterLast]
    by_cases h1 : ch ∈ cs
    · simp [h1, ih h1]
    · have hc : c = ch := by
        rcases List.mem_cons.mp h with h2 | h2
        · exact h2.symm
        · exact absurd h2 h1
      simp [h1, hc]

theorem afterLast_not_mem (ch : Char) (l : List Char) (h : ch ∈ l) : ch ∉ afterLast ch l := by
  induction l with
  | nil => simp at h
  | cons c cs ih =>
    simp only [afterLast]
    by_cases h1 : ch ∈ cs
    · simp [h1, ih h1]
    · have hc : c = ch := by
        rcases List.mem_cons.mp h with h2 | h2
        · exact h2.symm
        · exact absurd h2 h1
      simp [h1, hc]

theorem fromLast_append (ch : Char) (a b : List Char) (h : ch ∈ b) :
    fromLast ch (a ++ b) = fromLast ch b := by
  induction a with
  | nil => rfl
  | cons x xs ih =>
    have hm : ch ∈ xs ++ b := List.mem_append_right _ h
    simp [fromLast, hm, ih]

theorem fromLast_cons_self (ch : Char) (seg : List Char) (h : ch ∉ seg) :
    fromLast ch (ch :: seg) = ch :: seg := by
  simp [fromLast, h]

theorem not_colon_of_mem_takeWhile (l : List Char) :
    ∀ x ∈ l.takeWhile (fun ch => ch != ':'), (fun ch : Char => ch != ':') x = true := by
  intro x hx
  have hp := List.mem_takeWhile_imp hx
  exact hp

theorem rewrittenLink_data (link : String) :
    (rewrittenLink link).data =
      link.data.takeWhile (fun ch => ch != ':') ++ ':' :: fromLast '/' link.data := by
  simp [rewrittenLink, namePart]

theorem namePart_rewrittenLink (link : String) :
    namePart (rewrittenLink link) = namePart link := by
  unfold namePart
  rw [rewrittenLink_data, takeWhile_append_stop _ _ _ _ (not_colon_of_mem_takeWhile link.data)
    (by decide)]

theorem aliasPart_rewrittenLink (link : String) :
    aliasPart (rewrittenLink link) = ⟨fromLast '/' link.data⟩ := by
  unfold aliasPart
  rw [rewrittenLink_data, dropWhile_append_stop _ _ _ _ (not_colon_of_mem_takeWhile link.data)
    (by decide)]
  rfl

theorem fromLast_rewrittenLink (link : String) (h : '/' ∈ link.data) :
    fromLast '/' (rewrittenLink link).data = fromLast '/' link.data := by
  rw [rewrittenLink_data]
  have hmem : '/' ∈ ':' :: fromLast '/' link.data := by
    rw [fromLast_eq_cons_afterLast _ _ h]
    simp
  rw [fromLast_append _ _ _ hmem]
  have hcons : fromLast '/' (':' :: fromLast '/' link.data) = fromLast '/' (fromLast '/' link.data) := by
    have : '/' ∈ fromLast '/' link.data := by
      rw [fromLast_eq_cons_afterLast _ _ h]
      simp
    simp [fromLast, this]
  rw [hcons, fromLast_eq_cons_afterLast _ _ h,
    fromLast_cons_self _ _ (afterLast_not_mem _ _ h)]

theorem wellFormed_rewrittenLink (link : String) (h : wellFormed link) :
    wellFormed (rewrittenLink link) := by
  unfold wellFormed
  rw [rewrittenLink_data, fromLast_eq_cons_afterLast _ _ h.2]
  simp

theorem rewrittenLink_idem (link : String) (h : wellFormed link) :
    rewrittenLink (rewrittenLink link) = rewrittenLink link := by
  have h1 : rewrittenLink (rewrittenLink link) =
      namePart (rewrittenLink link) ++ ":" ++ ⟨fromLast '/' (rewrittenLink link).data⟩ := rfl
  rw [h1, namePart_rewrittenLink, fromLast_rewrittenLink link h.2]
  rfl

theorem rewrittenLink_pair (name aliasStr : String) (hn : ':' ∉ name.data)
    (ha : '/' ∈ aliasStr.data) :
    rewrittenLink (name ++ ":" ++ aliasStr) =
      name ++ ":/" ++ ⟨afterLast '/' aliasStr.data⟩ := by
  have hdata : (name ++ ":" ++ aliasStr).data = name.data ++ ':' :: aliasStr.data := by
    simp
  have hname : namePart (name ++ ":" ++ aliasStr) = name := by
    unfold namePart
    rw [hdata, takeWhile_append_stop _ _ _ _ (fun x hx => by
      simp only [bne_iff_ne, ne_eq]
      rintro rfl
      exact hn hx) (by decide)]
  unfold rewrittenLink
  rw [hname, hdata, fromLast_append _ _ _ (List.mem_cons_of_mem _ ha)]
  have : fromLast '/' (':' :: aliasStr.data) = fromLast '/' aliasStr.data := by
    simp [fromLast, ha]
  rw [this, fromLast_eq_cons_afterLast _ _ ha]
  apply String.ext
  simp

theorem splitFrom_colon_head (l piece : List Char) :
    ∃ tail, splitFrom [':'] l 0 piece =
      (⟨piece.reverse ++ l.takeWhile (fun ch => ch != ':')⟩ : String) :: tail := by
  induction l generalizing piece with
  | nil => exact ⟨[], by simp [splitFrom]⟩
  | cons c cs ih =>
    by_cases hc : c = ':'
    · subst hc
      exact ⟨splitFrom [':'] cs 0 [], by simp [splitFrom, List.isPrefixOf, List.takeWhile_cons]⟩
    · have hc2 : ¬ ':' = c := fun h => hc h.symm
      obtain ⟨tail, ht⟩ := ih (c :: piece)
      refine ⟨tail, ?_⟩
      simp [splitFrom, List.isPrefixOf, hc2, ht, List.takeWhile_cons, hc]

theorem stringsSplit_colon (link : String) :
    ∃ tail, stringsSplit link ":" = namePart link :: tail := by
  obtain ⟨tail, ht⟩ := splitFrom_colon_head link.data []
  exact ⟨tail, by simpa [stringsSplit, namePart] using ht⟩

theorem LinksLoop_eq (links acc : List String) :
    LinksLoop links acc = .returns (acc ++ links.map namePart) := by
  induction links generalizing acc with
  | nil => simp [LinksLoop]
  | cons link rest ih =>
    obtain ⟨tail, ht⟩ := stringsSplit_colon link
    simp [LinksLoop, ht, ih]

theorem namePart_of_no_colon (link : String) (h : ':' ∉ link.data) : namePart link = link := by
  unfold namePart
  have : link.data.takeWhile (fun ch => ch != ':') = link.data := by
    rw [List.takeWhile_eq_self_iff]
    intro x hx
    simp only [bne_iff_ne, ne_eq]
    rintro rfl
    exact h hx
  rw [this]

theorem hostConfig_wellFormed (stale : Bool) (info : ContainerInfo) (img : Option ImageInfo)
    (hc : HostConfig) (hHost : info.HostConfig = some hc)
    (h : ∀ link ∈ hc.Links, wellFormed link) :
    hostConfig ⟨stale, some info, img⟩ =
      (⟨stale, some { info with HostConfig := some { hc with Links := hc.Links.map rewrittenLink } },
          img⟩,
        .returns { hc with Links := hc.Links.map rewrittenLink }) := by
  simp [hostConfig, hHost, hostConfigLoop_wellFormed hc.Links h, withLinks]

theorem hostConfig_illFormed (stale : Bool) (info : ContainerInfo) (img : Option ImageInfo)
    (hc : HostConfig) (hHost : info.HostConfig = some hc)
    (h : ∃ link ∈ hc.Links, ¬ wellFormed link) :
    (hostConfig ⟨stale, some info, img⟩).2 = .panics .sliceBoundsOutOfRange := by
  have h2 := hostConfigLoop_illFormed hc.Links h
  simp only [hostConfig, hHost]
  rcases hloop : hostConfigLoop hc.Links with ⟨links, _ | f⟩
  · rw [hloop] at h2
    simp at h2
  · rw [hloop] at h2
    simp at h2
    simp [h2]

/-! ## Links and their rewriting -/

/-- C11 fails at its own example: hostConfig turns "/redis:/wordpress/redis" into
"/redis:/redis"; the alias keeps the '/' at which it was cut. -/
theorem hostConfig_alias_counterexample :
    hostConfigLink "/redis:/wordpress/redis" = .returns "/redis:/redis" ∧
    hostConfigLink "/redis:/wordpress/redis" ≠ .returns "/redis:redis" ∧
    (hostConfig ⟨false, some linkedInfo, none⟩).2.map (fun h => h.Links) =
      .returns ["/redis:/redis", "/db:/db"] := by
  decide

/-- C11, amended: when every link is name ++ ":" ++ alias with no ':' in the name
and a '/' in the alias, hostConfig returns the host configuration in which each
link is name ++ ":/" ++ s, s being the part of the alias after its last '/'. -/
theorem hostConfig_rewrites_links (stale : Bool) (info : ContainerInfo)
    (img : Option ImageInfo) (hc : HostConfig) (pairs : List (String × String))
    (hHost : info.HostConfig = some hc)
    (hLinks : hc.Links = pairs.map (fun p => p.1 ++ ":" ++ p.2))
    (hForm : ∀ p ∈ pairs, ':' ∉ p.1.data ∧ '/' ∈ p.2.data) :
    (hostConfig ⟨stale, some info, img⟩).2 =
      .returns { hc with
        Links := pairs.map (fun p => p.1 ++ ":/" ++ ⟨afterLast '/' p.2.data⟩) } := by
  have hwf : ∀ link ∈ hc.Links, wellFormed link := by
    intro link hl
    rw [hLinks, List.mem_map] at hl
    obtain ⟨p, hp, rfl⟩ := hl
    have h := hForm p hp
    constructor <;> simp [h.2]
  rw [hostConfig_wellFormed stale info img hc hHost hwf]
  have hmap : hc.Links.map rewrittenLink =
      pairs.map (fun p => p.1 ++ ":/" ++ ⟨afterLast '/' p.2.data⟩) := by
    rw [hLinks, List.map_map]
    apply List.map_congr_left
    intro p hp
    exact rewrittenLink_pair p.1 p.2 (hForm p hp).1 (hForm p hp).2
  simp only [hmap]

/-- C11, amended, on the container linked to redis and db. -/
theorem hostConfig_rewrites_links_witness :
    (hostConfig ⟨false, some linkedInfo, none⟩).2.map (fun h => h.Links) =
      .returns ["/redis:/redis", "/db:/db"] :=
  (congrArg (Outcome.map (fun h => h.Links))
    (hostConfig_rewrites_links false linkedInfo none redisHost
      [("/redis", "/wordpress/redis"), ("/db", "/wordpress/db")] rfl (by decide)
      (by decide))).trans (by decide)

/-- C16: Links never fails; it returns, in order, the part before the first ':' of
each host-level link (the whole link when it has no ':'), and the empty list
when container info or host configuration is missing. -/
theorem Links_eq (c : Container) :
    c.Links = .returns
      (match c.containerInfo with
       | none => []
       | some info =>
         match info.HostConfig with
         | none => []
         | some hc => hc.Links.map namePart) ∧
    (∀ name rest : String, ':' ∉ name.data → namePart (name ++ ":" ++ rest) = name) ∧
    (∀ link : String, ':' ∉ link.data → namePart link = link) := by
  refine ⟨?_, ?_, namePart_of_no_colon⟩
  · rcases c with ⟨stale, _ | info, img⟩
    · rfl
    · simp only [Links]
      cases info.HostConfig with
      | none => rfl
      | some hc => simp [LinksLoop_eq]
  · intro name rest hn
    unfold namePart
    have hdata : (name ++ ":" ++ rest).data = name.data ++ ':' :: rest.data := by simp
    rw [hdata, takeWhile_append_stop _ _ _ _ (fun x hx => by
      simp only [bne_iff_ne, ne_eq]
      rintro rfl
      exact hn hx) (by decide)]

/-- C16 on the linked container, on the test container (no host configuration)
and on a container without container info. -/
theorem Links_eq_witness :
    Links ⟨false, some linkedInfo, none⟩ = .returns ["/redis", "/db"] ∧
    testContainer.Links = .returns [] ∧
    Links ⟨false, none, none⟩ = .returns [] ∧
    namePart "redis" = "redis" :=
  ⟨(Links_eq ⟨false, some linkedInfo, none⟩).1.trans (by decide),
   (Links_eq testContainer).1, (Links_eq ⟨false, none, none⟩).1,
   (Links_eq testContainer).2.2 "redis" (by decide)⟩

/-- C18: with a host configuration, hostConfig returns when every link has a ':'
and a '/', and then the links are the rewritten links, as many and in the same
order; when some link lacks ':' or '/', the index is -1 and the call ends with
slice bounds out of range. -/
theorem hostConfig_total_iff (stale : Bool) (info : ContainerInfo) (img : Option ImageInfo)
    (hc : HostConfig) (hHost : info.HostConfig = some hc) :
    ((∀ link ∈ hc.Links, ':' ∈ link.data ∧ '/' ∈ link.data) →
      ∃ hc2 : HostConfig, (hostConfig ⟨stale, some info, img⟩).2 = .returns hc2 ∧
        hc2.Links.length = hc.Links.length ∧ hc2.Links = hc.Links.map rewrittenLink) ∧
    ((∃ link ∈ hc.Links, ¬ (':' ∈ link.data ∧ '/' ∈ link.data)) →
      (hostConfig ⟨stale, some info, img⟩).2 = .panics .sliceBoundsOutOfRange) ∧
    (∀ link : String,
      (':' ∉ link.data → stringsIndex link ":" = -1 ∧
        hostConfigLink link = .panics .sliceBoundsOutOfRange) ∧
      ('/' ∉ link.data → stringsLastIndex link "/" = -1 ∧
        hostConfigLink link = .panics .sliceBoundsOutOfRange)) := by
  refine ⟨?_, ?_, ?_⟩
  · intro h
    refine ⟨_, by rw [hostConfig_wellFormed stale info img hc hHost h], ?_, rfl⟩
    simp
  · intro h
    exact hostConfig_illFormed stale info img hc hHost h
  · intro link
    constructor
    · intro h
      refine ⟨?_, ?_⟩
      · show indexFrom [':'] link.data 0 = _
        rw [indexFrom_colon, if_neg h]
      · rw [hostConfigLink_eq, if_neg (fun hw => h hw.1)]
    · intro h
      refine ⟨?_, ?_⟩
      · show lastIndexFrom ['/'] link.data 0 = _
        rw [lastIndexFrom_slash, if_neg h]
      · rw [hostConfigLink_eq, if_neg (fun hw => h hw.2)]

/-- C18 on the linked container (two well-formed links) and on a container whose
second link is "redis". -/
theorem hostConfig_total_iff_witness :
    (∃ hc2 : HostConfig, (hostConfig ⟨false, some linkedInfo, none⟩).2 = .returns hc2 ∧
      hc2.Links.length = redisHost.Links.length ∧
      hc2.Links = redisHost.Links.map rewrittenLink) ∧
    (hostConfig ⟨false, some brokenInfo, none⟩).2 = .panics .sliceBoundsOutOfRange :=
  ⟨(hostConfig_total_iff false linkedInfo none redisHost rfl).1 (by decide),
   (hostConfig_total_iff false brokenInfo none brokenHost rfl).2.1
     ⟨"redis", by decide, by decide⟩⟩

/-- C19: for a link with ':' and '/', the loop body of hostConfig maps the
rewritten link to itself; the rewritten link has ':' and '/', the same name
part and exactly one '/' in its alias part.  When every link is of that kind, a
second hostConfig call on the container left by the first returns the same
host configuration and leaves the same container. -/
theorem hostConfig_idempotent :
    (∀ link : String, ':' ∈ link.data → '/' ∈ link.data →
      ∃ r : String, hostConfigLink link = .returns r ∧ hostConfigLink r = .returns r ∧
        (':' ∈ r.data ∧ '/' ∈ r.data) ∧ namePart r = namePart link ∧
        (aliasPart r).data.count '/' = 1) ∧
    (∀ (stale : Bool) (info : ContainerInfo) (img : Option ImageInfo) (hc : HostConfig),
      info.HostConfig = some hc → (∀ link ∈ hc.Links, ':' ∈ link.data ∧ '/' ∈ link.data) →
      (∃ hc2 : HostConfig, (hostConfig ⟨stale, some info, img⟩).2 = .returns hc2) ∧
      hostConfig (hostConfig ⟨stale, some info, img⟩).1 = hostConfig ⟨stale, some info, img⟩) := by
  refine ⟨?_, ?_⟩
  · intro link h1 h2
    have hw : wellFormed link := ⟨h1, h2⟩
    have hw2 := wellFormed_rewrittenLink link hw
    refine ⟨rewrittenLink link, ?_, ?_, hw2, namePart_rewrittenLink link, ?_⟩
    · rw [hostConfigLink_eq, if_pos hw]
    · rw [hostConfigLink_eq, if_pos hw2, rewrittenLink_idem link hw]
    · rw [aliasPart_rewrittenLink]
      show (fromLast '/' link.data).count '/' = 1
      rw [fromLast_eq_cons_afterLast _ _ h2, List.count_cons_self,
        List.count_eq_zero_of_not_mem (afterLast_not_mem _ _ h2)]
  · intro stale info img hc hHost h
    have h1 := hostConfig_wellFormed stale info img hc hHost h
    refine ⟨⟨_, by rw [h1]⟩, ?_⟩
    have hw2 : ∀ link ∈ hc.Links.map rewrittenLink, wellFormed link := by
      intro link hl
      rw [List.mem_map] at hl
      obtain ⟨l, hl, rfl⟩ := hl
      exact wellFormed_rewrittenLink l (h l hl)
    have hmap : (hc.Links.map rewrittenLink).map rewrittenLink = hc.Links.map rewrittenLink := by
      rw [List.map_map]
      apply List.map_congr_left
      intro l hl
      exact rewrittenLink_idem l (h l hl)
    rw [h1]
    simp only
    rw [hostConfig_wellFormed stale _ img { hc with Links := hc.Links.map rewrittenLink } rfl hw2]
    simp only [hmap]

/-- C19 on "/redis:/wordpress/redis" and on the linked container. -/
theorem hostConfig_idempotent_witness :
    (∃ r : String, hostConfigLink "/redis:/wordpress/redis" = .returns r ∧
      hostConfigLink r = .returns r ∧ (':' ∈ r.data ∧ '/' ∈ r.data) ∧
      namePart r = namePart "/redis:/wordpress/redis" ∧ (aliasPart r).data.count '/' = 1) ∧
    hostConfig (hostConfig ⟨false, some linkedInfo, none⟩).1 =
      hostConfig ⟨false, some linkedInfo, none⟩ :=
  ⟨hostConfig_idempotent.1 "/redis:/wordpress/redis" (by decide) (by decide),
   (hostConfig_idempotent.2 false linkedInfo none redisHost rfl (by decide)).2⟩

theorem withDefaultTag_idem (s : String) : withDefaultTag (withDefaultTag s) = withDefaultTag s := by
  by_cases h : ':' ∈ s.data
  · simp [withDefaultTag, h]
  · have h2 : ':' ∈ (s ++ ":latest").data := by
      simp only [String.data_append, List.mem_append]
      right
      decide
    simp [withDefaultTag, h, h2]

theorem stringMapSubtract_keep (m1 m2 : GoMap String) (k : String)
    (h : m1 k = none ∨ m2 k ≠ m1 k) : stringMapSubtract m1 m2 k = m1 k := by
  unfold stringMapSubtract
  cases h1 : m1 k with
  | none => rfl
  | some v =>
    rcases h with h | h
    · rw [h1] at h
      exact absurd h (by simp)
    · rw [h1] at h
      simp [h]

theorem IsTugbot_info (stale : Bool) (info : ContainerInfo) (img : Option ImageInfo) :
    IsTugbot ⟨stale, some info, img⟩ =
      .returns (decide (info.Config.Labels LabelTugbot = some "true")) := by
  simp only [IsTugbot, index_eq]
  cases h : info.Config.Labels LabelTugbot <;> simp [beq_eq_decide]

theorem StopSignal_info (stale : Bool) (info : ContainerInfo) (img : Option ImageInfo) :
    StopSignal ⟨stale, some info, img⟩ =
      .returns ((info.Config.Labels LabelStopSignal).getD "") := by
  simp only [StopSignal, index_eq]
  cases h : info.Config.Labels LabelStopSignal <;> simp

/-! ## Effects of runtimeConfig on the container -/

/-- C12 fails: a test container whose "tugbot.test" label is an image default
is a candidate before runtimeConfig and not after it; the call has removed the
label from the container's own record and cleared its working directory. -/
theorem runtimeConfig_frame_counterexample :
    IsTugbotCandidate ⟨false, some inheritedInfo, some testImage⟩ = .returns true ∧
    (runtimeConfig ⟨false, some inheritedInfo, some testImage⟩).1.IsTugbotCandidate =
      .returns false ∧
    labelOf ⟨false, some inheritedInfo, some testImage⟩ "tugbot.test" = some "true" ∧
    labelOf (runtimeConfig ⟨false, some inheritedInfo, some testImage⟩).1 "tugbot.test" = none ∧
    inheritedInfo.Config.WorkingDir = "/srv" ∧
    (runtimeConfig ⟨false, some inheritedInfo, some testImage⟩).1.containerInfo.map
      (fun i => i.Config.WorkingDir) = some "" := by
  decide

/-- C12, amended: with an image snapshot and a host configuration, runtimeConfig
leaves a container that differs from the one before only in its recorded
configuration, which is the returned override configuration; a label that is
absent or differs from the image default is kept, and when that holds for the
labels which the classifier reads, IsTugbot, IsTugbotCandidate, StopSignal and
ImageName return after the call what they returned before. -/
theorem runtimeConfig_frame (stale : Bool) (info : ContainerInfo) (image : ImageInfo)
    (hostConfig : HostConfig) (hHost : info.HostConfig = some hostConfig) :
    ∃ cfg : ContainerConfig,
      runtimeConfig ⟨stale, some info, some image⟩ =
        (⟨stale, some { info with Config := cfg }, some image⟩, .returns cfg) ∧
      (∀ k : String, info.Config.Labels k = none ∨ image.Config.Labels k ≠ info.Config.Labels k →
        cfg.Labels k = info.Config.Labels k) ∧
      ((∀ k ∈ classifierLabels,
          info.Config.Labels k = none ∨ image.Config.Labels k ≠ info.Config.Labels k) →
        IsTugbot (runtimeConfig ⟨stale, some info, some image⟩).1 =
          IsTugbot ⟨stale, some info, some image⟩ ∧
        IsTugbotCandidate (runtimeConfig ⟨stale, some info, some image⟩).1 =
          IsTugbotCandidate ⟨stale, some info, some image⟩ ∧
        StopSignal (runtimeConfig ⟨stale, some info, some image⟩).1 =
          StopSignal ⟨stale, some info, some image⟩ ∧
        ImageName (runtimeConfig ⟨stale, some info, some image⟩).1 =
          ImageName ⟨stale, some info, some image⟩) := by
  refine ⟨overrideOf info.Config image.Config hostConfig,
    runtimeConfig_full stale info image hostConfig hHost, ?_, ?_⟩
  · intro k hk
    exact stringMapSubtract_keep _ _ k hk
  · intro h
    have hl : ∀ k ∈ classifierLabels,
        (overrideOf info.Config image.Config hostConfig).Labels k = info.Config.Labels k :=
      fun k hk => stringMapSubtract_keep _ _ k (h k hk)
    have h1 := hl LabelTugbot (by simp [classifierLabels])
    have h2 := hl LabelTest (by simp [classifierLabels])
    have h3 := hl LabelCreatedFrom (by simp [classifierLabels])
    have h4 := hl LabelStopSignal (by simp [classifierLabels])
    have h5 := hl LabelZodiac (by simp [classifierLabels])
    rw [runtimeConfig_full stale info image hostConfig hHost]
    refine ⟨?_, ?_, ?_, ?_⟩
    · simp only [IsTugbot_info, h1]
    · simp only [IsTugbotCandidate_info, h2, h3]
    · simp only [StopSignal_info, h4]
    · simp only [ImageName_info, h5]
      have h6 : (overrideOf info.Config image.Config hostConfig).Image =
          withDefaultTag ((info.Config.Labels LabelZodiac).getD info.Config.Image) := by
        show withDefaultTag _ = _
        rw [show stringMapSubtract info.Config.Labels image.Config.Labels LabelZodiac =
          info.Config.Labels LabelZodiac from h5]
      rw [h6]
      cases hz : info.Config.Labels LabelZodiac with
      | none => simp [withDefaultTag_idem]
      | some v => simp

/-- C12, amended, on a container that overrides working directory and user and
has none of the classifier's labels. -/
theorem runtimeConfig_frame_witness :
    ∃ cfg : ContainerConfig,
      runtimeConfig ⟨false, some overrideInfo, some testImage⟩ =
        (⟨false, some { overrideInfo with Config := cfg }, some testImage⟩, .returns cfg) ∧
      IsTugbotCandidate (runtimeConfig ⟨false, some overrideInfo, some testImage⟩).1 =
        IsTugbotCandidate ⟨false, some overrideInfo, some testImage⟩ ∧
      ImageName (runtimeConfig ⟨false, some overrideInfo, some testImage⟩).1 =
        ImageName ⟨false, some overrideInfo, some testImage⟩ :=
  (runtimeConfig_frame false overrideInfo testImage plainHost rfl).imp
    (fun _ h => ⟨h.1, (h.2.2 (by decide)).2.1, (h.2.2 (by decide)).2.2.2⟩)

/-- C13: permuting the image's default environment does not change the
environment that runtimeConfig computes; whenever a configuration is returned,
and with a host configuration one is, its environment has exactly the
container's entries that do not occur in the image's default environment. -/
theorem runtimeConfig_env_order (stale : Bool) (info : ContainerInfo) (image : ImageInfo) :
    (∀ env2 : List String, env2.Perm image.Config.Env →
      (runtimeConfig
          ⟨stale, some info, some { image with Config := { image.Config with Env := env2 } }⟩).2.map
        (fun cfg => cfg.Env) =
      (runtimeConfig ⟨stale, some info, some image⟩).2.map (fun cfg => cfg.Env)) ∧
    (∀ cfg : ContainerConfig, (runtimeConfig ⟨stale, some info, some image⟩).2 = .returns cfg →
      ∀ e : String, e ∈ cfg.Env ↔ e ∈ info.Config.Env ∧ e ∉ image.Config.Env) ∧
    (∀ hostConfig : HostConfig, info.HostConfig = some hostConfig →
      ∃ cfg : ContainerConfig, (runtimeConfig ⟨stale, some info, some image⟩).2 = .returns cfg) := by
  have hsub : ∀ e : String,
      e ∈ sliceSubtract info.Config.Env image.Config.Env ↔
        e ∈ info.Config.Env ∧ e ∉ image.Config.Env := by
    intro e
    simp [sliceSubtract]
  refine ⟨?_, ?_, ?_⟩
  · intro env2 hperm
    have henv : sliceSubtract info.Config.Env env2 =
        sliceSubtract info.Config.Env image.Config.Env := by
      unfold sliceSubtract
      apply List.filter_congr
      intro e _
      have : e ∈ env2 ↔ e ∈ image.Config.Env := hperm.mem_iff
      simp [this]
    cases hH : info.HostConfig with
    | none => simp [runtimeConfig, hH, Outcome.map]
    | some hostConfig =>
      rw [runtimeConfig_full stale info _ hostConfig hH,
        runtimeConfig_full stale info image hostConfig hH]
      simp [Outcome.map, overrideOf, henv]
  · intro cfg hcfg e
    cases hH : info.HostConfig with
    | none => simp [runtimeConfig, hH] at hcfg
    | some hostConfig =>
      rw [runtimeConfig_full stale info image hostConfig hH] at hcfg
      simp only [Outcome.returns.injEq] at hcfg
      subst hcfg
      exact hsub e
  · intro hostConfig hH
    exact ⟨_, by rw [runtimeConfig_full stale info image hostConfig hH]⟩

/-- C13 on the web container with the image's two default entries swapped. -/
theorem runtimeConfig_env_order_witness :
    (runtimeConfig
        ⟨false, some overrideInfo,
          some { webImage with
            Config := { webImage.Config with Env := ["LANG=C", "PATH=/usr/bin"] } }⟩).2.map
      (fun cfg => cfg.Env) =
    (runtimeConfig ⟨false, some overrideInfo, some webImage⟩).2.map (fun cfg => cfg.Env) ∧
    ∃ cfg : ContainerConfig,
      (runtimeConfig ⟨false, some overrideInfo, some webImage⟩).2 = .returns cfg :=
  ⟨(runtimeConfig_env_order false overrideInfo webImage).1 ["LANG=C", "PATH=/usr/bin"]
      (List.Perm.swap _ _ _),
   (runtimeConfig_env_order false overrideInfo webImage).2.2 plainHost rfl⟩

/-- C17: IsTugbotCandidate does not read the agent label: giving that label any
value, or removing it, leaves the result as it is; and there is a container with
agent label "true", "tugbot.test" = "true", no "tugbot.created.from" and state
"exited" on which IsTugbot and IsTugbotCandidate both return true. -/
theorem IsTugbotCandidate_ignores_agent_label :
    (∀ (stale : Bool) (info : ContainerInfo) (img : Option ImageInfo) (v : Option String),
      IsTugbotCandidate
        ⟨stale,
          some { info with
            Config := { info.Config with
              Labels := fun k => if k = "gaiadocker.tugbot" then v else info.Config.Labels k } },
          img⟩ =
        IsTugbotCandidate ⟨stale, some info, img⟩) ∧
    (labelOf agentTestContainer "gaiadocker.tugbot" = some "true" ∧
      labelOf agentTestContainer "tugbot.test" = some "true" ∧
      labelOf agentTestContainer "tugbot.created.from" = none ∧
      stateOf agentTestContainer = some "exited" ∧
      agentTestContainer.IsTugbot = .returns true ∧
      agentTestContainer.IsTugbotCandidate = .returns true) := by
  refine ⟨?_, by decide⟩
  intro stale info img v
  have h1 : ¬ LabelTest = "gaiadocker.tugbot" := by decide
  have h2 : ¬ LabelCreatedFrom = "gaiadocker.tugbot" := by decide
  simp only [IsTugbotCandidate_info, h1, h2, if_false]

theorem launchPass_eq (containers launched : List Container) :
    launchPass containers launched = launched ++ containers.filter passesBoth := by
  induction containers generalizing launched with
  | nil => simp [launchPass]
  | cons c rest ih =>
    rw [launchPass]
    split
    · rename_i h1
      split
      · rename_i h2
        simp [ih, List.filter_cons, passesBoth, h1, h2]
      · rename_i h2
        have h3 : c.IsTugbotCandidate ≠ .returns true := fun h => h2 h
        simp [ih, List.filter_cons, passesBoth, h1, h3]
    · rename_i h1
      have h3 : c.IsTugbot ≠ .returns false := fun h => h1 h
      simp [ih, List.filter_cons, passesBoth, h3]

theorem step_launched (d : Driver) (e : Event) :
    ∃ added : List Container, (step d e).launched = d.launched ++ added ∧
      ∀ c ∈ added, passesBoth c = true := by
  unfold step
  cases hp : d.phase with
  | Stopped => exact ⟨[], by simp⟩
  | Running =>
    rcases e with (msg | cs) | ⟨(msg | cs), done⟩ | _
    · exact ⟨[], by simp⟩
    · exact ⟨cs.filter passesBoth, by simp [launchPass_eq], fun c hc => (List.mem_filter.mp hc).2⟩
    · exact ⟨[], by simp⟩
    · exact ⟨(cs.take done).filter passesBoth, by simp [launchPass_eq],
        fun c hc => (List.mem_filter.mp hc).2⟩
    · exact ⟨[], by simp⟩

theorem foldl_step_launched (events : List Event) (d : Driver)
    (h : ∀ c ∈ d.launched, passesBoth c = true) :
    ∀ c ∈ (events.foldl step d).launched, passesBoth c = true := by
  induction events generalizing d with
  | nil => simpa using h
  | cons e rest ih =>
    simp only [List.foldl_cons]
    apply ih
    obtain ⟨added, hadd, hpass⟩ := step_launched d e
    intro c hc
    rw [hadd, List.mem_append] at hc
    rcases hc with hc | hc
    · exact h c hc
    · exact hpass c hc

theorem passesBoth_iff (c : Container) :
    passesBoth c = true ↔ c.IsTugbot = .returns false ∧ c.IsTugbotCandidate = .returns true := by
  simp [passesBoth]

theorem IsTugbot_of_label (c : Container) (h : labelOf c LabelTugbot = some "true") :
    c.IsTugbot = .returns true := by
  rcases c with ⟨stale, _ | info, img⟩
  · simp [labelOf] at h
  · simp only [labelOf, Option.bind] at h
    simp [IsTugbot_info, h]

theorem foldl_step_failing (events : List Event) (d : Driver)
    (h : ∀ e ∈ events, e.listSucceeds = false) :
    (events.foldl step d).launched = d.launched ∧
    ((events.foldl step d).phase = .Stopped ↔
      d.phase = .Stopped ∨ ∃ e ∈ events, e.isCancellation = true) := by
  induction events generalizing d with
  | nil => simp
  | cons e rest ih =>
    have hrest := ih (step d e) (fun x hx => h x (List.mem_cons_of_mem _ hx))
    have he := h e (List.mem_cons_self _ _)
    simp only [List.foldl_cons]
    have hstep : (step d e).launched = d.launched ∧
        ((step d e).phase = .Stopped ↔ d.phase = .Stopped ∨ e.isCancellation = true) := by
      unfold step
      cases hp : d.phase with
      | Stopped => simp [hp]
      | Running =>
        rcases e with (msg | cs) | ⟨(msg | cs), done⟩ | _
        · simp [hp, Event.isCancellation]
        · simp [Event.listSucceeds] at he
        · simp [Event.isCancellation]
        · simp [Event.listSucceeds] at he
        · simp [Event.isCancellation]
    refine ⟨hrest.1.trans hstep.1, ?_⟩
    rw [hrest.2, hstep.2]
    simp only [List.mem_cons, exists_eq_or_imp]
    tauto

/-! ## Launches of the polling driver -/

/-- C14: on a tick with a successful listing the running driver requests
StartContainerFrom, in list order, for exactly the listed containers on which
IsTugbot returns false and IsTugbotCandidate returns true, and stays running.
Whatever happens, a launched container passed both checks, so a container with
agent label "true" is never launched; every event only appends to the requests
made so far, and two ticks that list the candidates c1 and then c2 launch c1
before c2. -/
theorem RunTickerTestContainers_launches :
    (∀ (d : Driver) (containers : List Container), d.phase = .Running →
      (step d (.tick (.ok containers))).phase = .Running ∧
      (step d (.tick (.ok containers))).launched =
        d.launched ++ containers.filter (fun c =>
          decide (c.IsTugbot = .returns false) &&
            decide (c.IsTugbotCandidate = .returns true))) ∧
    (∀ (events : List Event) (c : Container), c ∈ (RunTickerTestContainers events).launched →
      c.IsTugbot = .returns false ∧ c.IsTugbotCandidate = .returns true) ∧
    (∀ (events : List Event) (c : Container), labelOf c "gaiadocker.tugbot" = some "true" →
      c ∉ (RunTickerTestContainers events).launched) ∧
    (∀ (events : List Event) (e : Event), ∃ added : List Container,
      (RunTickerTestContainers (events ++ [e])).launched =
        (RunTickerTestContainers events).launched ++ added) ∧
    (∀ c1 c2 : Container,
      c1.IsTugbot = .returns false → c1.IsTugbotCandidate = .returns true →
      c2.IsTugbot = .returns false → c2.IsTugbotCandidate = .returns true →
      (RunTickerTestContainers [.tick (.ok [c1]), .tick (.ok [c2])]).launched = [c1, c2]) := by
  have hall : ∀ (events : List Event) (c : Container),
      c ∈ (RunTickerTestContainers events).launched →
        c.IsTugbot = .returns false ∧ c.IsTugbotCandidate = .returns true := by
    intro events c hc
    exact (passesBoth_iff c).mp
      (foldl_step_launched events { phase := .Running, launched := [] } (by simp) c hc)
  refine ⟨?_, hall, ?_, ?_, ?_⟩
  · intro d containers hp
    constructor
    · simp [step, hp]
    · simp only [step, hp, launchPass_eq]
      rfl
  · intro events c hlabel hc
    have h1 := (hall events c hc).1
    rw [IsTugbot_of_label c hlabel] at h1
    simp at h1
  · intro events e
    obtain ⟨added, hadd, _⟩ := step_launched (RunTickerTestContainers events) e
    exact ⟨added, by simpa [RunTickerTestContainers, List.foldl_append] using hadd⟩
  · intro c1 c2 h1 h2 h3 h4
    have hp1 : passesBoth c1 = true := (passesBoth_iff c1).mpr ⟨h1, h2⟩
    have hp2 : passesBoth c2 = true := (passesBoth_iff c2).mpr ⟨h3, h4⟩
    simp [RunTickerTestContainers, step, launchPass_eq, hp1, hp2]

/-- C14 on the containers of the tests: c1 is launched before c2, and a test
container with the agent label is not launched. -/
theorem RunTickerTestContainers_launches_witness :
    (RunTickerTestContainers [.tick (.ok [testC1]), .tick (.ok [testC2])]).launched =
      [testC1, testC2] ∧
    agentTestContainer ∉
      (RunTickerTestContainers [.tick (.ok [agentTestContainer, testC1])]).launched :=
  ⟨RunTickerTestContainers_launches.2.2.2.2 testC1 testC2 (by decide) (by decide) (by decide)
      (by decide),
   RunTickerTestContainers_launches.2.2.1 _ agentTestContainer (by decide)⟩

/-- C15: a tick on which the list call fails changes nothing: no launch, still
running.  A running driver stops only on an observation of cancellation.  When
every list call fails, nothing is ever launched, and the driver has stopped
exactly when cancellation was observed. -/
theorem RunTickerTestContainers_list_failure :
    (∀ (d : Driver) (msg : String), step d (.tick (.error msg)) = d) ∧
    (∀ (d : Driver) (e : Event), d.phase = .Running → (step d e).phase = .Stopped →
      e.isCancellation = true) ∧
    (∀ events : List Event, (∀ e ∈ events, e.listSucceeds = false) →
      (RunTickerTestContainers events).launched = [] ∧
      ((RunTickerTestContainers events).phase = .Stopped ↔
        ∃ e ∈ events, e.isCancellation = true)) := by
  refine ⟨?_, ?_, ?_⟩
  · intro d msg
    unfold step
    cases hp : d.phase <;> simp
  · intro d e hp hs
    rcases e with (msg | cs) | ⟨(msg | cs), done⟩ | _ <;>
      simp_all [step, Event.isCancellation]
  · intro events h
    have hf := foldl_step_failing events { phase := .Running, launched := [] } h
    exact ⟨hf.1, by simpa [RunTickerTestContainers] using hf.2⟩

/-- C15 on the failing client of the test: after two failed ticks the driver is
running and has launched nothing; after cancellation it has stopped. -/
theorem RunTickerTestContainers_list_failure_witness :
    (RunTickerTestContainers
        [.tick (.error "Expected :)"), .tick (.error "Expected :)")]).launched = [] ∧
    (RunTickerTestContainers
        [.tick (.error "Expected :)"), .tick (.error "Expected :)")]).phase = .Running ∧
    (RunTickerTestContainers
        [.tick (.error "Expected :)"), .tick (.error "Expected :)"), .cancel]).phase =
      .Stopped :=
  ⟨(RunTickerTestContainers_list_failure.2.2 _ (by simp [Event.listSucceeds])).1,
   by decide,
   (RunTickerTestContainers_list_failure.2.2 _ (by simp [Event.listSucceeds])).2.mpr
     ⟨.cancel, by simp, rfl⟩⟩

end Tugbot
